import Mathlib

/-!
Verification of the `file-norm` normalization pipeline: a shallow embedding of
`file_normalization/names.py`, `dates.py`, `normalizer.py` and the directory
handling of `cli.py`, together with theorems about the embedded operations.

Strings are modelled by Lean `String` (a list of characters); Python
`datetime` values produced by `strptime` are modelled by a `Date` record whose
construction validates the Gregorian calendar fields exactly as `strptime`
does; the filesystem is modelled by the finite sets of file and directory
paths, with creation-time metadata supplied as an oracle function.
-/

namespace FileNorm

/-! ### Characters: ASCII lowercasing (Python `str.lower` on ASCII input) -/

/-- ASCII lowercasing of one character: `A`..`Z` (codes 65..90) map 32 up. -/
def lowerChar (c : Char) : Char :=
  if 65 ≤ c.toNat ∧ c.toNat ≤ 90 then Char.ofNat (c.toNat + 32) else c

/-- Lowercase a whole string, character by character. -/
def lowerStr (s : String) : String := ⟨s.data.map lowerChar⟩

/-- The `\d` character class: ASCII digits `0`..`9` (codes 48..57). -/
def isDigitChar (c : Char) : Bool := 48 ≤ c.toNat && c.toNat ≤ 57

/-- Numeric value of an ASCII digit character. -/
def digitVal (c : Char) : Nat := c.toNat - 48

/-- The `[-_\s]` character class used by the date-stripping regexes:
hyphen, underscore, or ASCII whitespace. -/
def isSepSpace (c : Char) : Bool :=
  c = '-' || c = '_' || c = ' ' || c = '\t' || c = '\n' || c = '\r' ||
  c = '\x0b' || c = '\x0c'

/-! ### Decimal rendering of naturals (Python `str(int)` / f-string) -/

/-- The character for a single decimal digit. -/
def digitChar (n : Nat) : Char :=
  match n with
  | 0 => '0' | 1 => '1' | 2 => '2' | 3 => '3' | 4 => '4'
  | 5 => '5' | 6 => '6' | 7 => '7' | 8 => '8' | _ => '9'

/-- Decimal digit list with explicit fuel; `fuel > n` always suffices,
since the recursion divides by ten. Structural recursion on the fuel keeps
the function kernel-reducible. -/
def natDigitsAux (fuel n : Nat) : List Char :=
  match fuel with
  | 0 => []
  | fuel + 1 =>
    if n < 10 then [digitChar n]
    else natDigitsAux fuel (n / 10) ++ [digitChar (n % 10)]

/-- Decimal digit list of a natural number, most significant first. -/
def natDigits (n : Nat) : List Char := natDigitsAux (n + 1) n

/-- Decimal rendering of a natural number, as Python `str` renders an `int`. -/
def natToString (n : Nat) : String := ⟨natDigits n⟩

/-- Value of a digit list, most significant first. -/
def digitsToNat (ds : List Char) : Nat :=
  ds.foldl (fun a c => 10 * a + digitVal c) 0

/-! ### `names.py`: the name sanitizer -/

/-- One-character step of `replace_separators`: space and underscore both
become a hyphen. -/
def repChar (c : Char) : Char :=
  if c = ' ' then '-' else if c = '_' then '-' else c

/-- `replace_separators`: replace spaces and underscores with hyphens. -/
def replace_separators (name : String) : String := ⟨name.data.map repChar⟩

/-- Kernel of `collapse_hyphens` (`re.sub(r"-+", "-", name)`): drop a hyphen
that is immediately followed by another hyphen. -/
def collapseHyphens : List Char → List Char
  | [] => []
  | [c] => [c]
  | a :: b :: rest =>
    if a = '-' ∧ b = '-' then collapseHyphens (b :: rest)
    else a :: collapseHyphens (b :: rest)

/-- `collapse_hyphens`: collapse runs of hyphens into a single hyphen. -/
def collapse_hyphens (name : String) : String := ⟨collapseHyphens name.data⟩

/-- Kernel of `strip_edge_hyphens` (`name.strip("-")`): drop leading and
trailing hyphens. -/
def stripEdge (l : List Char) : List Char :=
  ((l.dropWhile (fun c => c = '-')).reverse.dropWhile (fun c => c = '-')).reverse

/-- `strip_edge_hyphens`: remove leading and trailing hyphens. -/
def strip_edge_hyphens (name : String) : String := ⟨stripEdge name.data⟩

/-- `to_lowercase`: lowercase the string. -/
def to_lowercase (name : String) : String := lowerStr name

/-- `sanitize_name`: lowercase, replace separators, collapse hyphens, strip
edge hyphens — in this order. -/
def sanitize_name (name : String) : String :=
  strip_edge_hyphens (collapse_hyphens (replace_separators (to_lowercase name)))

/-- `split_name_and_extension`, following `pathlib`: the suffix starts at the
last dot, provided that dot is neither the first nor the last character of
the name. -/
def split_name_and_extension (filename : String) : String × String :=
  let l := filename.data
  let tail := (l.reverse.takeWhile (fun c => c ≠ '.')).length
  if tail = l.length ∨ tail = 0 ∨ tail + 1 = l.length then (filename, "")
  else (⟨l.take (l.length - tail - 1)⟩, ⟨l.drop (l.length - tail - 1)⟩)

/-- The check `extension.startswith(".")`. -/
def startsWithDot (s : String) : Bool :=
  match s.data with
  | '.' :: _ => true
  | _ => false

/-- `join_name_and_extension`: insert a dot if the extension lacks one. -/
def join_name_and_extension (name extension : String) : String :=
  if extension ≠ "" ∧ startsWithDot extension = false then name ++ "." ++ extension
  else name ++ extension

/-! ### `dates.py`: calendar dates and date patterns -/

/-- A calendar date, the result of a successful `datetime.strptime`. -/
structure Date where
  year : Nat
  month : Nat
  day : Nat
deriving DecidableEq, Repr

/-- Gregorian leap-year rule, as used by `datetime`. -/
def isLeapYear (y : Nat) : Bool :=
  y % 4 = 0 && (y % 100 ≠ 0 || y % 400 = 0)

/-- Number of days in a month of a given year. -/
def daysInMonth (y m : Nat) : Nat :=
  if m = 2 then (if isLeapYear y then 29 else 28)
  else if m = 4 ∨ m = 6 ∨ m = 9 ∨ m = 11 then 30
  else 31

/-- Construct a `datetime`-valid date, or fail as `strptime` fails with
`ValueError`: year in 1..9999, month in 1..12, day within the month. -/
def mkValidDate (y m d : Nat) : Option Date :=
  if 1 ≤ y ∧ y ≤ 9999 ∧ 1 ≤ m ∧ m ≤ 12 ∧ 1 ≤ d ∧ d ≤ daysInMonth y m then
    some ⟨y, m, d⟩
  else none

/-- One token of a date regex: a fixed-length digit group or a literal
character. -/
inductive Tok where
  | digits (n : Nat)
  | lit (c : Char)
deriving DecidableEq, Repr

/-- Take exactly `n` digit characters from the front of the list, returning
them together with the rest; fail if fewer are available. -/
def takeDigits : Nat → List Char → Option (List Char × List Char)
  | 0, l => some ([], l)
  | _ + 1, [] => none
  | n + 1, c :: t =>
    if isDigitChar c then (takeDigits n t).map (fun p => (c :: p.1, p.2))
    else none

/-- Match a token list at the head of the character list. Returns the values
of the digit groups (in order) and the total number of characters matched.
All shapes used here are fixed-length, so regex greediness is irrelevant. -/
def matchShape : List Tok → List Char → Option (List Nat × Nat)
  | [], _ => some ([], 0)
  | Tok.digits n :: ts, l =>
    match takeDigits n l with
    | none => none
    | some (ds, rest) =>
      (matchShape ts rest).map (fun p => (digitsToNat ds :: p.1, n + p.2))
  | Tok.lit _ :: _, [] => none
  | Tok.lit c :: ts, x :: rest =>
    if x = c then (matchShape ts rest).map (fun p => (p.1, 1 + p.2))
    else none

/-- `re.search`: find the leftmost position where the shape matches.
Returns the start index, the digit groups, and the match length. -/
def searchShape (ts : List Tok) : List Char → Option (Nat × List Nat × Nat)
  | [] => (matchShape ts []).map (fun p => (0, p.1, p.2))
  | c :: t =>
    match matchShape ts (c :: t) with
    | some (gs, len) => some (0, gs, len)
    | none => (searchShape ts t).map (fun x => (x.1 + 1, x.2))

/-- Shape of `(\d{4})<sep>(\d{2})<sep>(\d{2})`. -/
def shapeYMD (sep : Char) : List Tok :=
  [Tok.digits 4, Tok.lit sep, Tok.digits 2, Tok.lit sep, Tok.digits 2]

/-- Shape of `(\d{2})<sep>(\d{2})<sep>(\d{4})`. -/
def shapeMDY (sep : Char) : List Tok :=
  [Tok.digits 2, Tok.lit sep, Tok.digits 2, Tok.lit sep, Tok.digits 4]

/-- Shape of `(\d{4})(\d{2})(\d{2})`. -/
def shapeCompact : List Tok := [Tok.digits 4, Tok.digits 2, Tok.digits 2]

/-- Which strptime format the captured groups are parsed with:
`%Y%m%d` (groups are year, month, day) or `%m%d%Y` (month, day, year). -/
inductive GroupOrder where
  | ymd
  | mdy
deriving DecidableEq, Repr

/-- Parse the joined captured groups per the cleaned strptime format. -/
def groupsToDate : GroupOrder → List Nat → Option Date
  | GroupOrder.ymd, [y, m, d] => mkValidDate y m d
  | GroupOrder.mdy, [m, d, y] => mkValidDate y m d
  | _, _ => none

/-- `DATE_PATTERNS`, in source order: `YYYY-MM-DD`, `YYYY_MM_DD`,
`YYYYMMDD`, `MM-DD-YYYY`, `MM_DD_YYYY`. -/
def DATE_PATTERNS : List (List Tok × GroupOrder) :=
  [(shapeYMD '-', GroupOrder.ymd),
   (shapeYMD '_', GroupOrder.ymd),
   (shapeCompact, GroupOrder.ymd),
   (shapeMDY '-', GroupOrder.mdy),
   (shapeMDY '_', GroupOrder.mdy)]

/-- One iteration of the extraction loop: search for the pattern anywhere,
and on a (syntactic) match parse the groups — `none` either when the pattern
matches nowhere or when `strptime` rejects the fields of its first match. -/
def tryPattern (p : List Tok × GroupOrder) (l : List Char) : Option Date :=
  match searchShape p.1 l with
  | none => none
  | some (_, gs, _) => groupsToDate p.2 gs

/-- The `for pattern, date_format in DATE_PATTERNS` loop: first pattern that
searches and parses successfully wins; a pattern whose first match has
invalid fields is abandoned (no retry at later positions). -/
def extractLoop : List (List Tok × GroupOrder) → List Char → Option Date
  | [], _ => none
  | p :: ps, l =>
    match tryPattern p l with
    | some d => some d
    | none => extractLoop ps l

/-- `extract_date_from_filename`. -/
def extract_date_from_filename (filename : String) : Option Date :=
  extractLoop DATE_PATTERNS filename.data

/-- `STRIP_PATTERNS`, in source order (the third is `^\d{8}`); each is
anchored at the start and followed by `[-_\s]*`. -/
def STRIP_PATTERNS : List (List Tok) :=
  [shapeYMD '-', shapeYMD '_', [Tok.digits 8], shapeMDY '-', shapeMDY '_']

/-- One `re.sub(r"^<shape>[-_\s]*", "", ...)` step: if the shape matches at
the start, remove it together with the following separator/whitespace run. -/
def stripOne (ts : List Tok) (l : List Char) : List Char :=
  match matchShape ts l with
  | some (_, len) => (l.drop len).dropWhile isSepSpace
  | none => l

/-- `strip_date_prefix`: apply the five anchored substitutions in order,
each to the result of the previous one. -/
def strip_date_prefix (filename : String) : String :=
  ⟨STRIP_PATTERNS.foldl (fun acc ts => stripOne ts acc) filename.data⟩

/-- Modelled from the spec: `strip_date_from_filename` is imported by
`normalizer.py` from the dates module and called on the date-found branch,
but it is defined nowhere in the package sources. Per spec §4.3 step 3 it
removes exactly the matched date token, wherever it sits in the stem,
together with its adjacent separator/whitespace run (mirroring the `[-_\s]*`
of `STRIP_PATTERNS`); the matched token is the first syntactic match of the
first pattern that parses to a valid date, exactly as in
`extract_date_from_filename`. -/
def stripDateLoop : List (List Tok × GroupOrder) → List Char → List Char
  | [], l => l
  | p :: ps, l =>
    match searchShape p.1 l with
    | none => stripDateLoop ps l
    | some (i, gs, len) =>
      match groupsToDate p.2 gs with
      | some _ => l.take i ++ (l.drop (i + len)).dropWhile isSepSpace
      | none => stripDateLoop ps l

/-- Modelled from the spec: see `stripDateLoop`. -/
def strip_date_from_filename (filename : String) : String :=
  ⟨stripDateLoop DATE_PATTERNS filename.data⟩

/-- Zero-padded two-digit field (`%m`, `%d`). -/
def pad2 (n : Nat) : String :=
  if n < 10 then "0" ++ natToString n else natToString n

/-- Zero-padded four-digit year field (`%Y`). -/
def pad4 (n : Nat) : String :=
  if n < 10 then "000" ++ natToString n
  else if n < 100 then "00" ++ natToString n
  else if n < 1000 then "0" ++ natToString n
  else natToString n

/-- The three members of class `DateFormat`. -/
def DateFormat.FULL : String := "full"

/-- `DateFormat.YEAR_MONTH`. -/
def DateFormat.YEAR_MONTH : String := "year-month"

/-- `DateFormat.YEAR`. -/
def DateFormat.YEAR : String := "year"

/-- `format_date`: render per the `DATE_FORMAT_PATTERNS` entry for `fmt`,
falling back to the `FULL` pattern when `fmt` is not a key (`dict.get`). -/
def format_date (date : Date) (fmt : String) : String :=
  if fmt = DateFormat.FULL then
    pad4 date.year ++ "-" ++ pad2 date.month ++ "-" ++ pad2 date.day
  else if fmt = DateFormat.YEAR_MONTH then
    pad4 date.year ++ "-" ++ pad2 date.month
  else if fmt = DateFormat.YEAR then
    pad4 date.year
  else
    pad4 date.year ++ "-" ++ pad2 date.month ++ "-" ++ pad2 date.day

/-! ### `normalizer.py`: the filename normalizer -/

/-- The date-removal step of `normalize_filename` (lines 39–43): the
date-confirmed stripping path when the extractor found a date, the anchored
leading-prefix strip otherwise. -/
def name_without_date (name : String) : String :=
  if (extract_date_from_filename name).isSome then strip_date_from_filename name
  else strip_date_prefix name

/-- `normalize_filename`. A `creation_date_str` of `some ""` takes the
no-prefix branch, as the empty string is falsy in `if add_date and
creation_date_str`. -/
def normalize_filename (filename : String) (add_date : Bool)
    (creation_date_str : Option String) (date_format : String) : String :=
  let ne := split_name_and_extension filename
  let name := ne.1
  let existing_date := extract_date_from_filename name
  let clean_name := sanitize_name (name_without_date name)
  let extension := lowerStr ne.2
  match existing_date with
  | some d =>
    join_name_and_extension (format_date d date_format ++ "-" ++ clean_name)
      extension
  | none =>
    match creation_date_str with
    | some cds =>
      if add_date ∧ cds ≠ "" then
        join_name_and_extension (cds ++ "-" ++ clean_name) extension
      else join_name_and_extension clean_name extension
    | none => join_name_and_extension clean_name extension

/-! ### Filesystem model -/

/-- A filesystem path: the parent-directory components and the final name. -/
structure FPath where
  dir : List String
  name : String
deriving DecidableEq, Repr

/-- `Path.parts`. -/
def FPath.parts (p : FPath) : List String := p.dir ++ [p.name]

/-- `len(p.parts)` — the sort key of `collect_directories`. -/
def FPath.depth (p : FPath) : Nat := p.parts.length

/-- The filesystem: which regular files and which directories exist. -/
structure FS where
  files : List FPath
  dirs : List FPath
deriving DecidableEq, Repr

/-- `path.is_file()`. -/
def FS.isFile (fs : FS) (p : FPath) : Bool := fs.files.contains p

/-- `path.is_dir()`. -/
def FS.isDir (fs : FS) (p : FPath) : Bool := fs.dirs.contains p

/-- `path.exists()`. -/
def FS.pathExists (fs : FS) (p : FPath) : Bool :=
  fs.files.contains p || fs.dirs.contains p

/-- `path.rename(new)`: the entry `old` now appears as `new`. -/
def FS.rename (fs : FS) (old new : FPath) : FS :=
  ⟨fs.files.map (fun q => if q = old then new else q),
   fs.dirs.map (fun q => if q = old then new else q)⟩

/-! ### `resolve_name_conflict` -/

/-- The candidate `parent / f"{stem}-{counter}{suffix}"`. -/
def conflict_candidate (dir : List String) (stem suffix : String) (counter : Nat) :
    FPath :=
  ⟨dir, stem ++ "-" ++ natToString counter ++ suffix⟩

/-- The `while new_path.exists()` loop, with explicit fuel. The fuel passed
by `resolve_name_conflict` is one more than the number of existing entries,
which always suffices (`resolve_loop_eq`), so the fuel-exhausted base case
is never reached. -/
def resolve_loop (fs : FS) (dir : List String) (stem suffix : String) :
    Nat → Nat → FPath
  | 0, counter => conflict_candidate dir stem suffix counter
  | fuel + 1, counter =>
    let cand := conflict_candidate dir stem suffix counter
    if fs.pathExists cand then resolve_loop fs dir stem suffix fuel (counter + 1)
    else cand

/-- `resolve_name_conflict`. -/
def resolve_name_conflict (fs : FS) (new_path original_path : FPath) : FPath :=
  if fs.pathExists new_path = false ∨ new_path = original_path then new_path
  else
    let se := split_name_and_extension new_path.name
    resolve_loop fs new_path.dir se.1 se.2
      (fs.files.length + fs.dirs.length + 1) 1

/-! ### `normalize_file` (the rename executor) -/

/-- The `creation_date_str` computed by `normalize_file` when `add_date` is
set; the file's creation instant is supplied by the metadata oracle
`ctime` (modelling `get_file_creation_date`). -/
def file_creation_str (ctime : FPath → Date) (p : FPath) (add_date : Bool)
    (date_format : String) : Option String :=
  if add_date then some (format_date (ctime p) date_format) else none

/-- The target filename `normalize_file` computes for `p`. -/
def file_target_name (ctime : FPath → Date) (p : FPath) (add_date : Bool)
    (date_format : String) : String :=
  normalize_filename p.name add_date (file_creation_str ctime p add_date date_format)
    date_format

/-- `normalize_file`: returns the reported outcome together with the
filesystem after the call. -/
def normalize_file (fs : FS) (ctime : FPath → Date) (filepath : FPath)
    (add_date dry_run : Bool) (date_format : String) :
    Option (FPath × FPath) × FS :=
  if fs.isFile filepath = false then (none, fs)
  else
    let new_name := file_target_name ctime filepath add_date date_format
    let new_path : FPath := ⟨filepath.dir, new_name⟩
    if new_path = filepath then (none, fs)
    else
      let resolved := resolve_name_conflict fs new_path filepath
      if dry_run then (some (filepath, resolved), fs)
      else (some (filepath, resolved), fs.rename filepath resolved)

/-- Modelled from the spec: `normalize_directory` is imported by `cli.py`
from the normalizer module but defined nowhere in the package sources. Per
spec §4.5 the directory variant behaves exactly like `normalize_file`
except that it omits date-prefix extraction and application: the directory
name is sanitized only. -/
def normalize_directory (fs : FS) (dirpath : FPath) (dry_run : Bool) :
    Option (FPath × FPath) × FS :=
  if fs.isDir dirpath = false then (none, fs)
  else
    let new_name := sanitize_name dirpath.name
    let new_path : FPath := ⟨dirpath.dir, new_name⟩
    if new_path = dirpath then (none, fs)
    else
      let resolved := resolve_name_conflict fs new_path dirpath
      if dry_run then (some (dirpath, resolved), fs)
      else (some (dirpath, resolved), fs.rename dirpath resolved)

/-! ### `cli.py`: directory collection order -/

/-- The sort of `collect_directories`: `sorted(dirs, key=len(p.parts),
reverse=True)` — stable, deepest path first. -/
def collect_directories_sort (dirs : List FPath) : List FPath :=
  dirs.mergeSort (fun a b => decide (FPath.depth b ≤ FPath.depth a))

/-- `a` is a strict ancestor of `b`: the parts of `a` are a proper prefix
of the parts of `b`, so renaming `a` first would invalidate the recorded
path of `b`. -/
def strictAncestor (a b : FPath) : Prop :=
  a.parts <+: b.parts ∧ a.parts ≠ b.parts

/-! ### Module structure of the package

The import list of `normalizer.py` from `file_normalization.dates`, and the
module-level names `dates.py` actually defines, as data. -/

/-- The names `dates.py` defines at module level. -/
def dates_module_defs : List String :=
  ["get_file_creation_date", "extract_date_from_filename", "strip_date_prefix",
   "DateFormat", "format_date", "DATE_PATTERNS", "STRIP_PATTERNS",
   "DATE_FORMAT_PATTERNS"]

/-- The names `normalizer.py` imports from `file_normalization.dates`
(lines 6–13). -/
def normalizer_imports_from_dates : List String :=
  ["DateFormat", "extract_date_from_filename", "format_date",
   "get_file_creation_date", "strip_date_from_filename", "strip_date_prefix"]

/-! ## Theorems -/

/-- C3: the date-found branch of `normalize_filename` calls
`strip_date_from_filename`, a name that `normalizer.py` imports from the
dates module (so the import must resolve before any filename can be
normalized) but that `dates.py` defines nowhere — hence the normalizer
module cannot be imported successfully, and no filename with an extractable
embedded date can be normalized by the code as written. -/
theorem C3_strip_date_import_unresolvable :
    "strip_date_from_filename" ∈ normalizer_imports_from_dates ∧
    "strip_date_from_filename" ∉ dates_module_defs := by
  constructor
  · decide
  · decide

/-- C5: `extract_date_from_filename` tries the five patterns in the fixed
source order `YYYY-MM-DD`, `YYYY_MM_DD`, `YYYYMMDD`, `MM-DD-YYYY`,
`MM_DD_YYYY`, taking only the first (leftmost) match of each pattern;
a pattern whose first match has invalid calendar fields is abandoned
without retrying later matches of that pattern; the result is the first
successfully parsed date or `none`, never an error. Witnessed concretely:
`"2024-13-45-document.pdf"` yields `none`; pattern priority beats match
position (`"12-31-2024-05-06"` parses as `2024-05-06`, not `12-31-2024`);
an invalid first match hides a valid later match of the same pattern
(`"9999-99-99-and-2024-01-15"` yields `none` although its tail alone
parses). -/
theorem C5_extract_pattern_order_and_abandonment :
    (∀ s : String, extract_date_from_filename s = extractLoop DATE_PATTERNS s.data)
    ∧ DATE_PATTERNS =
      [(shapeYMD '-', GroupOrder.ymd), (shapeYMD '_', GroupOrder.ymd),
       (shapeCompact, GroupOrder.ymd), (shapeMDY '-', GroupOrder.mdy),
       (shapeMDY '_', GroupOrder.mdy)]
    ∧ extract_date_from_filename "2024-13-45-document.pdf" = none
    ∧ extract_date_from_filename "12-31-2024-05-06" = some ⟨2024, 5, 6⟩
    ∧ extract_date_from_filename "9999-99-99-and-2024-01-15" = none
    ∧ extract_date_from_filename "and-2024-01-15" = some ⟨2024, 1, 15⟩ := by
  refine ⟨fun s => rfl, rfl, ?_, ?_, ?_, ?_⟩ <;> decide

/-- C10: `format_date` renders `YYYY-MM-DD` under `FULL`, `YYYY-MM` under
`YEAR_MONTH`, `YYYY` under `YEAR`, and silently falls back to the `FULL`
rendering for every other format value; the spec's concrete examples for an
embedded `2024_01_15` hold. -/
theorem C10_format_date_variants_and_fallback (d : Date) (fmt : String)
    (h : fmt ≠ DateFormat.FULL ∧ fmt ≠ DateFormat.YEAR_MONTH ∧ fmt ≠ DateFormat.YEAR) :
    format_date d DateFormat.FULL =
      pad4 d.year ++ "-" ++ pad2 d.month ++ "-" ++ pad2 d.day
    ∧ format_date d DateFormat.YEAR_MONTH = pad4 d.year ++ "-" ++ pad2 d.month
    ∧ format_date d DateFormat.YEAR = pad4 d.year
    ∧ format_date d fmt = format_date d DateFormat.FULL
    ∧ format_date ⟨2024, 1, 15⟩ DateFormat.YEAR_MONTH = "2024-01"
    ∧ format_date ⟨2024, 1, 15⟩ DateFormat.YEAR = "2024" := by
  refine ⟨rfl, ?_, ?_, ?_, by decide, by decide⟩
  · unfold format_date
    rw [if_neg (by decide), if_pos rfl]
  · unfold format_date
    rw [if_neg (by decide), if_neg (by decide), if_pos rfl]
  · unfold format_date
    rw [if_neg h.1, if_neg h.2.1, if_neg h.2.2, if_pos rfl]

/-- C10 witness: the fallback clause applied at the unrecognized format
value `"iso"` on the date 2024-01-15. -/
theorem C10_format_date_variants_and_fallback_witness :
    format_date ⟨2024, 1, 15⟩ "iso" = format_date ⟨2024, 1, 15⟩ DateFormat.FULL :=
  (C10_format_date_variants_and_fallback ⟨2024, 1, 15⟩ "iso"
    ⟨by decide, by decide, by decide⟩).2.2.2.1

/-- C9: in dry-run mode `normalize_file` never mutates the filesystem, and
the outcome it reports is exactly the outcome a real run on the same
filesystem state reports. -/
theorem C9_dry_run_purity (fs : FS) (ctime : FPath → Date) (p : FPath)
    (add_date : Bool) (fmt : String) :
    (normalize_file fs ctime p add_date true fmt).2 = fs
    ∧ (normalize_file fs ctime p add_date true fmt).1
      = (normalize_file fs ctime p add_date false fmt).1 := by
  by_cases h1 : fs.isFile p = false
  · constructor <;> simp [normalize_file, h1]
  · by_cases h2 : (⟨p.dir, file_target_name ctime p add_date fmt⟩ : FPath) = p
    · constructor <;> simp [normalize_file, h1, h2]
    · constructor <;> simp [normalize_file, h1, h2]

/-- C8: `normalize_file` signals the explicit empty result `none` exactly
when the path is not a regular file or the computed target filename equals
the current filename; in every other case it reports the pair of the
original path and the conflict-resolved target path. -/
theorem C8_no_result_iff_not_file_or_noop (fs : FS) (ctime : FPath → Date)
    (p : FPath) (add_date dry_run : Bool) (fmt : String) :
    ((normalize_file fs ctime p add_date dry_run fmt).1 = none
      ↔ fs.isFile p = false ∨ file_target_name ctime p add_date fmt = p.name)
    ∧ ((normalize_file fs ctime p add_date dry_run fmt).1 ≠ none →
        (normalize_file fs ctime p add_date dry_run fmt).1 =
          some (p, resolve_name_conflict fs
            ⟨p.dir, file_target_name ctime p add_date fmt⟩ p)) := by
  obtain ⟨pd, pn⟩ := p
  by_cases h1 : fs.isFile ⟨pd, pn⟩ = false
  · simp [normalize_file, h1]
  · by_cases h2 : file_target_name ctime ⟨pd, pn⟩ add_date fmt = pn
    · simp [normalize_file, h1, h2]
    · cases dry_run <;> simp [normalize_file, FPath.mk.injEq, h1, h2]

/-- C8 witness: the non-empty-result clause applied at a concrete one-file
filesystem whose file needs renaming. -/
theorem C8_no_result_iff_not_file_or_noop_witness :
    (normalize_file ⟨[⟨["d"], "Hello_World.txt"⟩], []⟩ (fun _ => ⟨2024, 3, 20⟩)
        ⟨["d"], "Hello_World.txt"⟩ false false "full").1
      = some (⟨["d"], "Hello_World.txt"⟩,
          resolve_name_conflict ⟨[⟨["d"], "Hello_World.txt"⟩], []⟩
            ⟨["d"], file_target_name (fun _ => ⟨2024, 3, 20⟩)
              ⟨["d"], "Hello_World.txt"⟩ false "full"⟩
            ⟨["d"], "Hello_World.txt"⟩) :=
  (C8_no_result_iff_not_file_or_noop ⟨[⟨["d"], "Hello_World.txt"⟩], []⟩
    (fun _ => ⟨2024, 3, 20⟩) ⟨["d"], "Hello_World.txt"⟩ false false "full").2
    (by decide)

/-- C1: whenever the stem contains an extractable embedded date,
`normalize_filename` prepends that date reformatted per the requested
format, joined to the sanitized date-stripped stem with a hyphen, and the
result is independent of `add_date` and of any supplied creation-date
string; in particular the spec's precedence example holds. -/
theorem C1_embedded_date_wins (fn : String) (add_date : Bool)
    (creation_date_str : Option String) (fmt : String) (d : Date)
    (h : extract_date_from_filename (split_name_and_extension fn).1 = some d) :
    normalize_filename fn add_date creation_date_str fmt
      = join_name_and_extension
          (format_date d fmt ++ "-" ++
            sanitize_name (strip_date_from_filename (split_name_and_extension fn).1))
          (lowerStr (split_name_and_extension fn).2)
    ∧ normalize_filename fn add_date creation_date_str fmt
      = normalize_filename fn false none fmt
    ∧ normalize_filename "2024-01-15-document.txt" true (some "2024-03-20")
        DateFormat.FULL = "2024-01-15-document.txt" := by
  refine ⟨?_, ?_, by decide⟩ <;>
    simp [normalize_filename, name_without_date, h]

/-- C1 witness: the precedence example, obtained from the theorem at the
concrete input with the hypothesis discharged by evaluation. -/
theorem C1_embedded_date_wins_witness :
    normalize_filename "2024-01-15-document.txt" true (some "2024-03-20")
      DateFormat.FULL = "2024-01-15-document.txt" :=
  (C1_embedded_date_wins "2024-01-15-document.txt" true (some "2024-03-20")
    DateFormat.FULL ⟨2024, 1, 15⟩ (by decide)).2.2

/-- C2: the date-removal step of `normalize_filename` branches on whether
the extractor found a date: date found ⇒ exact-token removal (the matched
token and its adjacent separator run are removed wherever they sit in the
stem), date absent ⇒ anchored-prefix-only removal (a syntactic leading date
shape is stripped even when no date parses, and mid-name shapes are left in
place). -/
theorem C2_date_removal_branch_distinction :
    (∀ name : String, ∀ d : Date, extract_date_from_filename name = some d →
      name_without_date name = strip_date_from_filename name)
    ∧ (∀ name : String, extract_date_from_filename name = none →
      name_without_date name = strip_date_prefix name)
    ∧ strip_date_from_filename "report-2024-01-15-final" = "report-final"
    ∧ strip_date_prefix "report-2024-01-15-final" = "report-2024-01-15-final"
    ∧ strip_date_prefix "2024-01-15-report" = "report"
    ∧ name_without_date "9999-99-99-doc" = "doc"
    ∧ name_without_date "doc-9999-99-99" = "doc-9999-99-99"
    ∧ normalize_filename "report-2024-01-15-final.txt" false none
        DateFormat.FULL = "2024-01-15-report-final.txt" := by
  refine ⟨?_, ?_, by decide, by decide, by decide, by decide, by decide, by decide⟩
  · intro name d h
    simp [name_without_date, h]
  · intro name h
    simp [name_without_date, h]

/-- C2 witness: both branches exercised at concrete stems. -/
theorem C2_date_removal_branch_distinction_witness :
    name_without_date "report-2024-01-15-final"
      = strip_date_from_filename "report-2024-01-15-final"
    ∧ name_without_date "no-date-here" = strip_date_prefix "no-date-here" :=
  ⟨C2_date_removal_branch_distinction.1 "report-2024-01-15-final"
      ⟨2024, 1, 15⟩ (by decide),
   C2_date_removal_branch_distinction.2.1 "no-date-here" (by decide)⟩

/-- C4 helper: a strict ancestor is strictly shallower. -/
theorem strictAncestor_depth_lt {a b : FPath} (h : strictAncestor a b) :
    FPath.depth a < FPath.depth b := by
  have hle := h.1.length_le
  have hne : a.parts.length ≠ b.parts.length := fun hl => h.2 (h.1.eq_of_length hl)
  unfold FPath.depth
  omega

/-- C4: the directory variant of the rename executor does nothing for a
non-directory; for a directory it performs exactly the file variant's
no-op check, conflict resolution, and dry-run-guarded rename, with the
target name computed by sanitizing the directory name only (no date
extraction or application); and the deepest-first sort of
`collect_directories` guarantees that no directory is followed in
processing order by one of its strict descendants, so renaming a parent
never invalidates a pending child path. -/
theorem C4_directory_variant_and_deepest_first (fs : FS) (p : FPath)
    (dry_run : Bool) (dirs : List FPath) :
    (fs.isDir p = false → normalize_directory fs p dry_run = (none, fs))
    ∧ (fs.isDir p = true →
        normalize_directory fs p dry_run =
          (if (⟨p.dir, sanitize_name p.name⟩ : FPath) = p then (none, fs)
           else
             (some (p, resolve_name_conflict fs ⟨p.dir, sanitize_name p.name⟩ p),
              if dry_run then fs
              else fs.rename p
                (resolve_name_conflict fs ⟨p.dir, sanitize_name p.name⟩ p))))
    ∧ List.Pairwise (fun a b => ¬ strictAncestor a b)
        (collect_directories_sort dirs) := by
  refine ⟨?_, ?_, ?_⟩
  · intro h
    simp [normalize_directory, h]
  · intro h
    by_cases h2 : (⟨p.dir, sanitize_name p.name⟩ : FPath) = p
    · simp [normalize_directory, h, h2]
    · cases dry_run <;> simp [normalize_directory, h, h2]
  · have htrans : ∀ a b c : FPath,
        decide (FPath.depth b ≤ FPath.depth a) = true →
        decide (FPath.depth c ≤ FPath.depth b) = true →
        decide (FPath.depth c ≤ FPath.depth a) = true := by
      intro a b c h1 h2
      simp only [decide_eq_true_eq] at *
      omega
    have htotal : ∀ a b : FPath,
        (decide (FPath.depth b ≤ FPath.depth a) ||
         decide (FPath.depth a ≤ FPath.depth b)) = true := by
      intro a b
      simp only [Bool.or_eq_true, decide_eq_true_eq]
      omega
    have hs := List.sorted_mergeSort htrans htotal dirs
    unfold collect_directories_sort
    refine hs.imp ?_
    intro a b hab hanc
    have := strictAncestor_depth_lt hanc
    simp only [decide_eq_true_eq] at hab
    omega

/-- C4 witness: the non-directory clause at a concrete filesystem, and the
ordering clause at a concrete parent/child pair. -/
theorem C4_directory_variant_and_deepest_first_witness :
    normalize_directory ⟨[], []⟩ ⟨[], "X"⟩ true = (none, ⟨[], []⟩)
    ∧ List.Pairwise (fun a b => ¬ strictAncestor a b)
        (collect_directories_sort [⟨[], "a"⟩, ⟨["a"], "b"⟩]) :=
  ⟨(C4_directory_variant_and_deepest_first ⟨[], []⟩ ⟨[], "X"⟩ true []).1 (by decide),
   (C4_directory_variant_and_deepest_first ⟨[], []⟩ ⟨[], "X"⟩ true
      [⟨[], "a"⟩, ⟨["a"], "b"⟩]).2.2⟩

/-! ### Decimal rendering: correctness and injectivity -/

/-- Digit characters decode to their value below ten. -/
theorem digitVal_digitChar (n : Nat) (h : n < 10) : digitVal (digitChar n) = n := by
  interval_cases n <;> decide

/-- Decoding after appending a final digit. -/
theorem digitsToNat_append_singleton (xs : List Char) (c : Char) :
    digitsToNat (xs ++ [c]) = 10 * digitsToNat xs + digitVal c := by
  simp [digitsToNat, List.foldl_append]

/-- With sufficient fuel, decoding inverts rendering. -/
theorem digitsToNat_natDigitsAux :
    ∀ fuel n, n < fuel → digitsToNat (natDigitsAux fuel n) = n := by
  intro fuel
  induction fuel with
  | zero => intro n h; omega
  | succ f ih =>
    intro n h
    unfold natDigitsAux
    by_cases h10 : n < 10
    · rw [if_pos h10]
      have := digitVal_digitChar n h10
      simp [digitsToNat]
      omega
    · rw [if_neg h10, digitsToNat_append_singleton]
      have hdiv : n / 10 < n := Nat.div_lt_self (by omega) (by omega)
      rw [ih (n / 10) (by omega), digitVal_digitChar (n % 10) (by omega)]
      omega

/-- Decimal rendering is injective. -/
theorem natToString_injective : Function.Injective natToString := by
  intro m n h
  have hd : natDigits m = natDigits n := congrArg String.data h
  have hm := digitsToNat_natDigitsAux (m + 1) m (by omega)
  have hn := digitsToNat_natDigitsAux (n + 1) n (by omega)
  unfold natDigits at hd
  rw [← hm, ← hn, hd]

/-! ### The conflict-resolution loop -/

/-- Candidates with distinct counters are distinct paths. -/
theorem conflict_candidate_injective (dir : List String) (stem suffix : String) :
    Function.Injective (conflict_candidate dir stem suffix) := by
  intro m n h
  have hname := congrArg FPath.name h
  simp only [conflict_candidate] at hname
  have hdata := congrArg String.data hname
  simp only [String.data_append, List.append_assoc] at hdata
  have h1 := List.append_cancel_left hdata
  have h2 := List.append_cancel_left h1
  have h3 := List.append_cancel_right h2
  exact natToString_injective (String.ext h3)

/-- The loop returns the first free candidate, given enough fuel. -/
theorem resolve_loop_finds (fs : FS) (dir : List String) (stem suffix : String)
    (N : Nat) :
    ∀ fuel counter, counter ≤ N → N - counter < fuel →
      (∀ m, counter ≤ m → m < N →
        fs.pathExists (conflict_candidate dir stem suffix m) = true) →
      fs.pathExists (conflict_candidate dir stem suffix N) = false →
      resolve_loop fs dir stem suffix fuel counter
        = conflict_candidate dir stem suffix N := by
  intro fuel
  induction fuel with
  | zero => intro counter h1 h2 _ _; omega
  | succ f ih =>
    intro counter h1 h2 hall hN
    unfold resolve_loop
    by_cases hc : counter = N
    · subst hc
      simp [hN]
    · have hex := hall counter le_rfl (by omega)
      simp only [hex, if_true]
      exact ih (counter + 1) (by omega) (by omega)
        (fun m hm1 hm2 => hall m (by omega) hm2) hN

/-- Pigeonhole: if every candidate below `N` exists in the filesystem, then
`N` is bounded by the number of existing entries plus one, so the fuel
passed by `resolve_name_conflict` suffices. -/
theorem conflict_counter_bound (fs : FS) (dir : List String)
    (stem suffix : String) (N : Nat) (h1 : 1 ≤ N)
    (hall : ∀ m, 1 ≤ m → m < N →
      fs.pathExists (conflict_candidate dir stem suffix m) = true) :
    N ≤ fs.files.length + fs.dirs.length + 1 := by
  by_contra hcon
  push_neg at hcon
  have hnodup : ((List.range' 1 (N - 1)).map
      (conflict_candidate dir stem suffix)).Nodup :=
    (List.nodup_range' 1 (N - 1)).map (conflict_candidate_injective dir stem suffix)
  have hsub : ∀ x ∈ (List.range' 1 (N - 1)).map (conflict_candidate dir stem suffix),
      x ∈ fs.files ++ fs.dirs := by
    intro x hx
    simp only [List.mem_map, List.mem_range'_1] at hx
    obtain ⟨m, ⟨hm1, hm2⟩, rfl⟩ := hx
    have hm := hall m hm1 (by omega)
    simp [FS.pathExists] at hm
    simpa using hm
  have hlen : ((List.range' 1 (N - 1)).map
      (conflict_candidate dir stem suffix)).length ≤ (fs.files ++ fs.dirs).length := by
    calc ((List.range' 1 (N - 1)).map (conflict_candidate dir stem suffix)).length
        = ((List.range' 1 (N - 1)).map
            (conflict_candidate dir stem suffix)).toFinset.card :=
          (List.toFinset_card_of_nodup hnodup).symm
      _ ≤ (fs.files ++ fs.dirs).toFinset.card := by
          refine Finset.card_le_card ?_
          intro x hx
          rw [List.mem_toFinset] at hx ⊢
          exact hsub x hx
      _ ≤ (fs.files ++ fs.dirs).length := List.toFinset_card_le _
  simp only [List.length_map, List.length_range', List.length_append] at hlen
  omega

/-- C6: `resolve_name_conflict` returns the desired path unchanged when it
does not exist or equals the original; otherwise it returns the candidate
`stem-N.extension` for the least counter `N ≥ 1` whose candidate does not
exist; concretely, with `file.txt` and `file-1.txt` existing and a distinct
original, resolving `file.txt` yields `file-2.txt`. -/
theorem C6_conflict_counter_least_free (fs : FS) (new_path original_path : FPath)
    (N : Nat) :
    ((fs.pathExists new_path = false ∨ new_path = original_path) →
      resolve_name_conflict fs new_path original_path = new_path)
    ∧ (fs.pathExists new_path = true → new_path ≠ original_path → 1 ≤ N →
      (∀ m, 1 ≤ m → m < N →
        fs.pathExists (conflict_candidate new_path.dir
          (split_name_and_extension new_path.name).1
          (split_name_and_extension new_path.name).2 m) = true) →
      fs.pathExists (conflict_candidate new_path.dir
        (split_name_and_extension new_path.name).1
        (split_name_and_extension new_path.name).2 N) = false →
      resolve_name_conflict fs new_path original_path
        = conflict_candidate new_path.dir
            (split_name_and_extension new_path.name).1
            (split_name_and_extension new_path.name).2 N)
    ∧ resolve_name_conflict
        ⟨[⟨["d"], "file.txt"⟩, ⟨["d"], "file-1.txt"⟩], []⟩
        ⟨["d"], "file.txt"⟩ ⟨["d"], "original.txt"⟩
        = ⟨["d"], "file-2.txt"⟩ := by
  refine ⟨?_, ?_, by decide⟩
  · intro h
    simp [resolve_name_conflict, h]
  · intro hex hne h1 hall hN
    unfold resolve_name_conflict
    rw [if_neg (by simp [hex, hne])]
    have hbound := conflict_counter_bound fs new_path.dir
      (split_name_and_extension new_path.name).1
      (split_name_and_extension new_path.name).2 N h1 hall
    exact resolve_loop_finds fs new_path.dir
      (split_name_and_extension new_path.name).1
      (split_name_and_extension new_path.name).2 N
      (fs.files.length + fs.dirs.length + 1) 1 h1 (by omega) hall hN

/-- C6 witness: the general least-counter clause applied at the concrete
two-collision filesystem with `N = 2`. -/
theorem C6_conflict_counter_least_free_witness :
    resolve_name_conflict
      ⟨[⟨["d"], "file.txt"⟩, ⟨["d"], "file-1.txt"⟩], []⟩
      ⟨["d"], "file.txt"⟩ ⟨["d"], "original.txt"⟩
      = conflict_candidate ["d"] "file" ".txt" 2 :=
  (C6_conflict_counter_least_free
    ⟨[⟨["d"], "file.txt"⟩, ⟨["d"], "file-1.txt"⟩], []⟩
    ⟨["d"], "file.txt"⟩ ⟨["d"], "original.txt"⟩ 2).2.1
    (by decide) (by decide) (by decide)
    (fun m hm1 hm2 => by
      have hm : m = 1 := by omega
      subst hm
      decide)
    (by decide)

/-! ### Sanitizer idempotence: character-level facts -/

/-- Valid code points round-trip through `Char.ofNat`. -/
theorem char_toNat_ofNat (n : Nat) (h : n.isValidChar) : (Char.ofNat n).toNat = n := by
  simp [Char.ofNat, h, Char.ofNatAux, Char.toNat, UInt32.toNat, BitVec.toNat_ofNatLt]

/-- Lowercasing an uppercase letter adds 32 to its code. -/
theorem lowerChar_toNat (c : Char) (h : 65 ≤ c.toNat ∧ c.toNat ≤ 90) :
    (lowerChar c).toNat = c.toNat + 32 := by
  have hv : (c.toNat + 32).isValidChar := by
    left
    have := c.val.toNat_lt
    omega
  simp [lowerChar, h, char_toNat_ofNat _ hv]

/-- ASCII lowercasing is idempotent. -/
theorem lowerChar_idem (c : Char) : lowerChar (lowerChar c) = lowerChar c := by
  by_cases h : 65 ≤ c.toNat ∧ c.toNat ≤ 90
  · have h1 := lowerChar_toNat c h
    have h2 : ¬ (65 ≤ (lowerChar c).toNat ∧ (lowerChar c).toNat ≤ 90) := by omega
    nth_rewrite 1 [lowerChar]
    rw [if_neg h2]
  · simp only [lowerChar, if_neg h]

/-- Separator replacement is idempotent. -/
theorem repChar_idem (c : Char) : repChar (repChar c) = repChar c := by
  by_cases h1 : c = ' '
  · subst h1
    decide
  · by_cases h2 : c = '_'
    · subst h2
      decide
    · simp [repChar, h1, h2]

/-- Characters produced by the lowercase-then-replace stage are fixed by
both stages. -/
theorem sanitizedChar_stage (c : Char) :
    lowerChar (repChar (lowerChar c)) = repChar (lowerChar c)
    ∧ repChar (repChar (lowerChar c)) = repChar (lowerChar c) := by
  refine ⟨?_, repChar_idem _⟩
  by_cases h1 : lowerChar c = ' '
  · rw [h1]
    decide
  · by_cases h2 : lowerChar c = '_'
    · rw [h2]
      decide
    · have hr : repChar (lowerChar c) = lowerChar c := by simp [repChar, h1, h2]
      rw [hr, lowerChar_idem]

/-- Mapping a function that fixes every member is the identity. -/
theorem map_id_of_fixed {f : Char → Char} :
    ∀ l : List Char, (∀ c ∈ l, f c = c) → l.map f = l
  | [], _ => rfl
  | a :: t, h => by
    rw [List.map_cons, h a (List.mem_cons_self a t),
      map_id_of_fixed t (fun c hc => h c (List.mem_cons_of_mem a hc))]

/-! ### Sanitizer idempotence: hyphen collapsing -/

/-- Members of the collapsed list come from the original. -/
theorem mem_collapseHyphens : ∀ l : List Char, ∀ c, c ∈ collapseHyphens l → c ∈ l
  | [], c => by simp [collapseHyphens]
  | [a], c => by simp [collapseHyphens]
  | a :: b :: rest, c => by
    unfold collapseHyphens
    split
    · intro hc
      exact List.mem_cons_of_mem a (mem_collapseHyphens (b :: rest) c hc)
    · intro hc
      rcases List.mem_cons.mp hc with h1 | h1
      · exact h1 ▸ List.mem_cons_self c _
      · exact List.mem_cons_of_mem a (mem_collapseHyphens (b :: rest) c h1)

/-- Collapsing keeps the head. -/
theorem head?_collapseHyphens :
    ∀ l : List Char, (collapseHyphens l).head? = l.head?
  | [] => rfl
  | [_] => rfl
  | a :: b :: rest => by
    unfold collapseHyphens
    split
    case isTrue h =>
      rw [head?_collapseHyphens (b :: rest)]
      simp [h.1, h.2]
    case isFalse h => simp

/-- The collapsed list has no two adjacent hyphens. -/
theorem chain'_collapseHyphens :
    ∀ l : List Char,
      List.Chain' (fun a b => ¬ (a = '-' ∧ b = '-')) (collapseHyphens l)
  | [] => by simp [collapseHyphens]
  | [a] => by simp [collapseHyphens]
  | a :: b :: rest => by
    unfold collapseHyphens
    split
    case isTrue _ => exact chain'_collapseHyphens (b :: rest)
    case isFalse h =>
      rw [List.chain'_cons']
      refine ⟨?_, chain'_collapseHyphens (b :: rest)⟩
      intro y hy
      rw [head?_collapseHyphens (b :: rest)] at hy
      simp only [List.head?_cons, Option.mem_def, Option.some.injEq] at hy
      subst hy
      exact h

/-- A list with no two adjacent hyphens collapses to itself. -/
theorem collapseHyphens_eq_self :
    ∀ l : List Char,
      List.Chain' (fun a b => ¬ (a = '-' ∧ b = '-')) l → collapseHyphens l = l
  | [], _ => rfl
  | [_], _ => rfl
  | a :: b :: rest, h => by
    rw [List.chain'_cons] at h
    unfold collapseHyphens
    rw [if_neg h.1, collapseHyphens_eq_self (b :: rest) h.2]

/-! ### Sanitizer idempotence: edge stripping -/

/-- The head surviving `dropWhile` fails the predicate. -/
theorem head?_dropWhile_ne (p : Char → Bool) :
    ∀ l : List Char, ∀ c, (l.dropWhile p).head? = some c → p c = false
  | [], c => by simp
  | a :: t, c => by
    rw [List.dropWhile_cons]
    split
    case isTrue _ => exact head?_dropWhile_ne p t c
    case isFalse h =>
      intro hc
      simp only [List.head?_cons, Option.some.injEq] at hc
      subst hc
      simpa using h

/-- Heads agree along a nonempty initial segment. -/
theorem head?_of_pre {l₁ l₂ : List Char} {c : Char} (h : l₁ <+: l₂)
    (hc : l₁.head? = some c) : l₂.head? = some c := by
  obtain ⟨t, rfl⟩ := h
  cases l₁ with
  | nil => simp at hc
  | cons a t' => simpa using hc

/-- The edge-stripped list is an initial segment of the front-stripped
list. -/
theorem stripEdge_pre (l : List Char) :
    stripEdge l <+: l.dropWhile (fun c => c = '-') := by
  unfold stripEdge
  rw [← List.reverse_suffix, List.reverse_reverse]
  exact List.dropWhile_suffix _

/-- The edge-stripped list sits inside the original. -/
theorem stripEdge_mid (l : List Char) : stripEdge l <:+: l :=
  (stripEdge_pre l).isInfix.trans (List.dropWhile_suffix _).isInfix

/-- The edge-stripped list does not start with a hyphen. -/
theorem stripEdge_head {l : List Char} {c : Char}
    (h : (stripEdge l).head? = some c) : c ≠ '-' := by
  have h2 := head?_of_pre (stripEdge_pre l) h
  have h3 := head?_dropWhile_ne _ l c h2
  simpa using h3

/-- The edge-stripped list does not end with a hyphen. -/
theorem stripEdge_getLast {l : List Char} {c : Char}
    (h : (stripEdge l).getLast? = some c) : c ≠ '-' := by
  unfold stripEdge at h
  rw [List.getLast?_reverse] at h
  have h3 := head?_dropWhile_ne _ _ c h
  simpa using h3

/-- A list that neither starts nor ends with a hyphen strips to itself. -/
theorem stripEdge_eq_self (l : List Char)
    (h1 : ∀ c, l.head? = some c → c ≠ '-')
    (h2 : ∀ c, l.getLast? = some c → c ≠ '-') :
    stripEdge l = l := by
  have hd : l.dropWhile (fun c => c = '-') = l := by
    cases l with
    | nil => rfl
    | cons a t =>
      rw [List.dropWhile_cons, if_neg (by simpa using h1 a rfl)]
  unfold stripEdge
  rw [hd]
  have hr : l.reverse.dropWhile (fun c => c = '-') = l.reverse := by
    cases hrev : l.reverse with
    | nil => rfl
    | cons a t =>
      have ha : a ≠ '-' := by
        refine h2 a ?_
        rw [← List.head?_reverse, hrev]
        rfl
      rw [List.dropWhile_cons, if_neg (by simpa using ha)]
  rw [hr, List.reverse_reverse]

/-! ### Sanitizer idempotence: assembly -/

/-- Every character of a sanitized name is fixed by lowercasing and by
separator replacement. -/
theorem sanitize_chars_fixed (x : String) :
    ∀ c ∈ (sanitize_name x).data, lowerChar c = c ∧ repChar c = c := by
  intro c hc
  have hc2 : c ∈ collapseHyphens ((x.data.map lowerChar).map repChar) :=
    (stripEdge_mid _).subset hc
  have hc3 : c ∈ (x.data.map lowerChar).map repChar :=
    mem_collapseHyphens _ c hc2
  simp only [List.map_map, List.mem_map, Function.comp] at hc3
  obtain ⟨a, _, rfl⟩ := hc3
  exact ⟨(sanitizedChar_stage a).1, (sanitizedChar_stage a).2⟩

/-- C7: the name sanitizer is idempotent. -/
theorem C7_sanitize_idempotent (x : String) :
    sanitize_name (sanitize_name x) = sanitize_name x := by
  apply String.ext
  show stripEdge (collapseHyphens
    (((sanitize_name x).data.map lowerChar).map repChar)) = (sanitize_name x).data
  have hfix := sanitize_chars_fixed x
  rw [map_id_of_fixed (sanitize_name x).data (fun c hc => (hfix c hc).1)]
  rw [map_id_of_fixed (sanitize_name x).data (fun c hc => (hfix c hc).2)]
  have hchain : List.Chain' (fun a b => ¬ (a = '-' ∧ b = '-'))
      ((sanitize_name x).data) :=
    List.Chain'.infix
      (chain'_collapseHyphens ((x.data.map lowerChar).map repChar))
      (stripEdge_mid _)
  rw [collapseHyphens_eq_self _ hchain]
  exact stripEdge_eq_self _ (fun c hc => stripEdge_head hc)
    (fun c hc => stripEdge_getLast hc)

end FileNorm

